import Mathlib

set_option autoImplicit false
set_option maxRecDepth 8192

/-!
Verification of the 5eBot tabletop Discord bot (`main.py` and
`modules/spells.py`).  Python strings are modelled as `List Char`; each
handler that a claim refers to is translated into an executable Lean
function, and the behavioural claims are proved about these functions.
-/

/-! ### String primitives (models of the Python string operations) -/

/-- Model of Python `str.startswith`: `isPrefixChars n h` is true when the
needle `n` occurs at the very start of `h`. -/
def isPrefixChars : List Char → List Char → Bool
  | [], _ => true
  | _ :: _, [] => false
  | n :: ns, h :: hs => n = h && isPrefixChars ns hs

/-- Model of the Python substring test `needle in hay`. -/
def isSubChars (needle : List Char) : List Char → Bool
  | [] => isPrefixChars needle []
  | c :: hs => isPrefixChars needle (c :: hs) || isSubChars needle hs

/-- Model of Python `str.split(sep)` for a one-character separator: splits at
every occurrence of `c`, keeping empty segments, so that splitting the empty
string yields `[[]]`. -/
def splitChar (c : Char) : List Char → List (List Char)
  | [] => [[]]
  | x :: xs =>
    if x = c then [] :: splitChar c xs
    else
      match splitChar c xs with
      | [] => [[x]]
      | y :: ys => (x :: y) :: ys

theorem splitChar_ne_nil (c : Char) (l : List Char) : splitChar c l ≠ [] := by
  cases l with
  | nil => simp [splitChar]
  | cons x xs =>
      simp only [splitChar]
      by_cases h : x = c
      · simp [h]
      · simp only [if_neg h]
        cases splitChar c xs <;> simp

/-- Model of Python `str.lstrip(chars)`: removes the longest run of leading
characters that belong to the character set `cs`. -/
def lstripChars (cs : List Char) : List Char → List Char
  | [] => []
  | x :: xs => if x ∈ cs then lstripChars cs xs else x :: xs

/-! ### Journal reply-note system: the `!clear` / `!clearall` line loops
(`main.py`, `on_message`, lines 714-736) -/

/-- The literal marker `"Personal Note"` used by the note system. -/
def personalNoteMark : List Char := "Personal Note".data

/-- The rebuild loop shared by the two clearing branches of `on_message`:
`new_content = ''` followed by `for line in lines: if <keep>: new_content +=
line + '\n'`. -/
def keep_loop (p : List Char → Bool) (lines : List (List Char)) : List Char :=
  lines.foldl (fun acc line => if p line then acc ++ line ++ ['\n'] else acc) []

/-- The `"!clear"` branch (`main.py` lines 715-721): a line is kept when
`user not in line or 'Personal Note' not in line`. -/
def clear_notes_user (user content : List Char) : List Char :=
  keep_loop (fun line => !(isSubChars user line) || !(isSubChars personalNoteMark line))
    (splitChar '\n' content)

/-- The `"!clearall"` branch (`main.py` lines 728-732): a line is kept when
`'Personal Note' not in line`. -/
def clear_notes_all (content : List Char) : List Char :=
  keep_loop (fun line => !(isSubChars personalNoteMark line)) (splitChar '\n' content)

theorem keep_loop_foldl_acc (p : List Char → Bool) (ls : List (List Char)) :
    ∀ acc : List Char,
      ls.foldl (fun acc line => if p line then acc ++ line ++ ['\n'] else acc) acc
        = acc ++ ((ls.filter p).map (fun l => l ++ ['\n'])).flatten := by
  induction ls with
  | nil => intro acc; simp
  | cons l ls ih =>
      intro acc
      rw [List.foldl_cons, ih]
      cases h : p l <;> simp [h, List.filter_cons, List.append_assoc]

theorem keep_loop_eq_filter (p : List Char → Bool) (ls : List (List Char)) :
    keep_loop p ls = ((ls.filter p).map (fun l => l ++ ['\n'])).flatten := by
  unfold keep_loop
  simpa using keep_loop_foldl_acc p ls []

theorem join_map_newline_splitChar (c : Char) (l : List Char) :
    ((splitChar c l).map (fun s => s ++ [c])).flatten = l ++ [c] := by
  induction l with
  | nil => simp [splitChar]
  | cons x xs ih =>
      simp only [splitChar]
      by_cases h : x = c
      · simp [h, ih]
      · simp only [if_neg h]
        cases hs : splitChar c xs with
        | nil => exact absurd hs (splitChar_ne_nil c xs)
        | cons y ys =>
            rw [hs] at ih
            simp only [List.map_cons, List.flatten_cons] at ih ⊢
            simp [← List.append_assoc, ← ih]

/-- Claim C7: a `"!clear"` reply rebuilds the journal body as exactly the
lines that do not both contain the replying user mention and the marker
`"Personal Note"`; removed lines are exactly those containing both, every
kept line is unchanged, and the relative order of kept lines is preserved
(the rebuilt body is the in-order concatenation of the kept lines, each
followed by a newline). -/
theorem clear_user_removes_exactly_matching_lines (user content : List Char) :
    clear_notes_user user content
      = (((splitChar '\n' content).filter
            (fun line => !(isSubChars user line) || !(isSubChars personalNoteMark line))).map
          (fun l => l ++ ['\n'])).flatten := by
  unfold clear_notes_user
  exact keep_loop_eq_filter _ _

/-- Claim C9: when no line of the original body both mentions the replying
user and contains `"Personal Note"`, the `"!clear"` rebuild keeps every line
and appends a newline after each one, so the rebuilt body is the original
body plus a trailing newline; in particular it differs from the original
body, so the comparison on `main.py` line 777 always triggers an edit. -/
theorem clear_user_no_match_still_edits (user content : List Char)
    (h : ∀ line ∈ splitChar '\n' content,
        (!(isSubChars user line) || !(isSubChars personalNoteMark line)) = true) :
    clear_notes_user user content = content ++ ['\n'] ∧
    clear_notes_user user content ≠ content := by
  have hfix : clear_notes_user user content = content ++ ['\n'] := by
    unfold clear_notes_user
    rw [keep_loop_eq_filter, List.filter_eq_self.mpr h, join_map_newline_splitChar]
  refine ⟨hfix, ?_⟩
  rw [hfix]
  intro heq
  have hlen := congrArg List.length heq
  simp at hlen

/-- Witness for claim C9 at a concrete journal body with no matching line. -/
theorem clear_user_no_match_still_edits_witness :
    clear_notes_user "<@77>".data "Day 3: the party sets out.".data
        = "Day 3: the party sets out.".data ++ ['\n'] ∧
    clear_notes_user "<@77>".data "Day 3: the party sets out.".data
        ≠ "Day 3: the party sets out.".data :=
  clear_user_no_match_still_edits "<@77>".data "Day 3: the party sets out.".data (by decide)

/-! ### Journal reply-note system: reply classification
(`main.py`, `on_message`, lines 713-779) -/

def clearCmd : List Char := "!clear".data

def clearallCmd : List Char := "!clearall".data

def replyasMark : List Char := "!replyas".data

def replyasStripSet : List Char := "!replyas ".data

def noteLineMark : List Char := "> **Personal Note** ".data

/-- The effects the journal branch performs on the platform: `edit` holds the
new body when `orig_message.edit` was called, `deleted` records whether the
triggering reply was deleted. -/
structure JournalEffects where
  edit : Option (List Char)
  deleted : Bool
deriving DecidableEq

/-- Result of handling a journal reply: either the handler ran to completion
with the recorded effects, or a `NameError` escaped (reading the unbound
`char_emoji` when no character profile matched). -/
inductive JournalResult where
  | done (fx : JournalEffects)
  | raised
deriving DecidableEq

/-- The common tail of the journal branch (`main.py` lines 777-779): the
original message is edited only when the computed body differs from it, and
the triggering reply is deleted. -/
def journal_finish (orig new_content : List Char) : JournalResult :=
  JournalResult.done ⟨if new_content ≠ orig then some new_content else none, true⟩

/-- The `!replyas` note line (`main.py` line 752); `str.lstrip` strips the
character set of `"!replyas "`. -/
def replyas_line (emoji note : List Char) : List Char :=
  noteLineMark ++ emoji ++ [' '] ++ lstripChars replyasStripSet note

/-- The plain personal-note line (`main.py` line 773). -/
def plain_note_line (emoji user note : List Char) : List Char :=
  noteLineMark ++ emoji ++ [' '] ++ user ++ [' '] ++ note

/-- The journal-channel branch of `on_message` (`main.py` lines 713-779),
classifying a reply `note` from `user` to the bot message `orig`.
`characters` is the configured roster of `(id, emoji)` profiles; `is_dm`
says whether the author holds the Dungeon Master role.  The non-DM
`!clearall` and `!replyas` branches `return` before the edit/delete tail;
building a note line with no matched profile reads the unbound local
`char_emoji`, which raises. -/
def handle_journal_reply (is_dm : Bool) (user note orig : List Char)
    (characters : List (List Char × List Char)) : JournalResult :=
  if note = clearCmd then
    journal_finish orig (clear_notes_user user orig)
  else if note = clearallCmd then
    if is_dm then journal_finish orig (clear_notes_all orig)
    else JournalResult.done ⟨none, false⟩
  else if isPrefixChars replyasMark note then
    if is_dm then
      match characters.find? (fun p => isSubChars p.1 note) with
      | some p => journal_finish orig (orig ++ '\n' :: replyas_line p.2 note)
      | none => JournalResult.raised
    else JournalResult.done ⟨none, false⟩
  else
    match characters.find? (fun p => isSubChars p.1 user) with
    | some p => journal_finish orig (orig ++ '\n' :: plain_note_line p.2 user note)
    | none => JournalResult.raised

/-- Whether the handler completed and deleted the reply (`none` when it
raised). -/
def journal_deleted : JournalResult → Option Bool
  | JournalResult.done fx => some fx.deleted
  | JournalResult.raised => none

/-- Claim C1 counterexample: a `"!clearall"` reply from a user without the
Dungeon Master role takes the early `return` on `main.py` line 736, so the
triggering reply is NOT deleted (and no edit is made) — the claim that the
reply message is always deleted after classification is false on the code. -/
theorem clearall_without_dm_role_not_deleted :
    handle_journal_reply false "<@42>".data "!clearall".data
        "Day 3 begins.".data []
      = JournalResult.done ⟨none, false⟩ := by decide

/-- Claim C1 (amended): the triggering reply is deleted after a `!clear`
reply, after a DM-issued `!clearall`, and after a `!replyas` or plain note
whose character profile resolves; a `!clearall` or `!replyas` reply from a
user lacking the Dungeon Master role takes an early return, leaving the
original unmodified and the reply undeleted; a DM `!replyas` or a plain note
with no matching character profile raises and performs neither action. -/
theorem journal_reply_deletion_characterization (is_dm : Bool)
    (user note orig : List Char) (characters : List (List Char × List Char)) :
    (note = clearCmd →
        journal_deleted (handle_journal_reply is_dm user note orig characters) = some true) ∧
    (note = clearallCmd → is_dm = true →
        journal_deleted (handle_journal_reply is_dm user note orig characters) = some true) ∧
    (note = clearallCmd → is_dm = false →
        handle_journal_reply is_dm user note orig characters
          = JournalResult.done ⟨none, false⟩) ∧
    (note ≠ clearCmd → note ≠ clearallCmd → isPrefixChars replyasMark note = true →
        (is_dm = false →
            handle_journal_reply is_dm user note orig characters
              = JournalResult.done ⟨none, false⟩) ∧
        (is_dm = true →
          ∀ p, characters.find? (fun q => isSubChars q.1 note) = some p →
            journal_deleted (handle_journal_reply is_dm user note orig characters)
              = some true) ∧
        (is_dm = true → characters.find? (fun q => isSubChars q.1 note) = none →
            handle_journal_reply is_dm user note orig characters = JournalResult.raised)) ∧
    (note ≠ clearCmd → note ≠ clearallCmd → isPrefixChars replyasMark note = false →
        (∀ p, characters.find? (fun q => isSubChars q.1 user) = some p →
            journal_deleted (handle_journal_reply is_dm user note orig characters)
              = some true) ∧
        (characters.find? (fun q => isSubChars q.1 user) = none →
            handle_journal_reply is_dm user note orig characters = JournalResult.raised)) := by
  refine ⟨?_, ?_, ?_, ?_, ?_⟩
  · intro h
    unfold handle_journal_reply
    rw [if_pos h]
    simp [journal_finish, journal_deleted]
  · intro h hdm
    unfold handle_journal_reply
    rw [if_neg (by rw [h]; decide), if_pos h, hdm]
    simp [journal_finish, journal_deleted]
  · intro h hdm
    unfold handle_journal_reply
    rw [if_neg (by rw [h]; decide), if_pos h, hdm]
    simp
  · intro h1 h2 h3
    unfold handle_journal_reply
    rw [if_neg h1, if_neg h2, if_pos h3]
    refine ⟨?_, ?_, ?_⟩
    · intro hdm; rw [hdm]; simp
    · intro hdm p hp; rw [hdm]; simp [hp, journal_finish, journal_deleted]
    · intro hdm hp; rw [hdm]; simp [hp]
  · intro h1 h2 h3
    unfold handle_journal_reply
    rw [if_neg h1, if_neg h2, if_neg (by simp [h3])]
    refine ⟨?_, ?_⟩
    · intro p hp; simp [hp, journal_finish, journal_deleted]
    · intro hp; simp [hp]

/-- Witness for the amended claim C1: a DM-issued `!clearall` completes and
deletes the triggering reply. -/
theorem journal_reply_deletion_characterization_witness :
    journal_deleted (handle_journal_reply true "<@42>".data "!clearall".data
        "Day 3 begins.".data []) = some true :=
  (journal_reply_deletion_characterization true "<@42>".data "!clearall".data
      "Day 3 begins.".data []).2.1 rfl rfl

/-! ### AI companion: `send_prompt` (`main.py` lines 110-158) -/

def contentFilterCode : List Char := "content_filter".data

def fromInkwellTag : List Char := "From Inkwell: ".data

def inkwellTag : List Char := "Inkwell: ".data

/-- Outcome of the external completion call
`client.chat.completions.create(...)` together with the extraction
`response.choices[0].message.content` inside the `try` body:
* `success content` — the call returned and the content was extracted;
* `failWithResponse code` — the call returned a response object but the
  extraction raised; `code` is the value of the `code` attribute when the
  response object has one, `none` when it does not;
* `failBeforeResponse` — the call itself raised, so the local variable
  `response` was never assigned. -/
inductive CompletionOutcome where
  | success (content : List Char)
  | failWithResponse (code : Option (List Char))
  | failBeforeResponse
deriving DecidableEq

/-- What `send_prompt` does: return a completion string, or let an exception
escape. -/
inductive PromptResult where
  | returned (completion : List Char)
  | raisedUnboundLocal
  | raisedAttributeError
deriving DecidableEq

/-- The dialogue-prefix trimming at the end of `send_prompt` (`main.py`
lines 152-155); `str.lstrip` strips a character set, modelled by
`lstripChars`. -/
def trim_dialog (completion : List Char) : List Char :=
  if isPrefixChars fromInkwellTag completion then lstripChars fromInkwellTag completion
  else if isPrefixChars inkwellTag completion then lstripChars inkwellTag completion
  else completion

/-- `send_prompt` (`main.py` lines 137-158): the `try` body runs the
completion call; on any exception the `except` block evaluates
`response.code`, which raises `UnboundLocalError` when the call itself
raised (`response` is unbound) and `AttributeError` when the returned
response object has no `code` attribute; otherwise the fallback completion
is chosen by comparing the code with `'content_filter'`, and the chosen
completion is prefix-trimmed and returned. -/
def send_prompt (outcome : CompletionOutcome)
    (filter_response error_response : List Char) : PromptResult :=
  match outcome with
  | CompletionOutcome.success content => PromptResult.returned (trim_dialog content)
  | CompletionOutcome.failWithResponse (some code) =>
      if code = contentFilterCode then PromptResult.returned (trim_dialog filter_response)
      else PromptResult.returned (trim_dialog error_response)
  | CompletionOutcome.failWithResponse none => PromptResult.raisedAttributeError
  | CompletionOutcome.failBeforeResponse => PromptResult.raisedUnboundLocal

/-- Claim C2 (code bug): when the completion call itself raises — which is
how the upstream service reports both content-policy rejections and other
failures — the `except` handler reads the never-assigned local `response`,
so `send_prompt` raises `UnboundLocalError` instead of returning either
configured fallback text; the failure escapes `send_prompt`. -/
theorem send_prompt_raises_on_call_failure :
    send_prompt CompletionOutcome.failBeforeResponse
        "The spirits refuse to answer that.".data
        "Inkwell is sleeping and cannot answer.".data
      = PromptResult.raisedUnboundLocal := rfl

/-! ### Travel resolution (`main.py`, `travel`, lines 462-514) -/

def miredMsg : List Char :=
  ":confounded: The Castaways become mired in the wilderness and fail to leave their current hex.".data

def successMsg : List Char :=
  ":partying_face: Success! The Castaways proceed toward their destination.".data

def lostMsg : List Char :=
  ":scream: The Castaways become lost and do not end up where they intended!".data

/-- The pace adjustment applied to the starting DC (`main.py` lines
467-470). -/
def adjusted_dc (base_dc : Int) (pace : List Char) : Int :=
  if pace = "fast".data then base_dc + 5
  else if pace = "cautious".data then base_dc - 5
  else base_dc

/-- Result of the navigation part of `travel`: the adjusted starting DC, the
`navigate_result` message, and the ending hex. -/
structure TravelNav where
  start_dc : Int
  navigate_result : List Char
  end_hex : List Char
deriving DecidableEq

/-- Navigation resolution (`main.py` lines 460-502).  `slow_roll` is the d4
rolled on a cautious pace; `selected_hex` is the value the DM picks from the
select menu when the party becomes lost. -/
def travel_navigation (base_dc : Int) (pace : List Char) (slow_roll : Nat)
    (nav_check : Int) (start_hex target_hex selected_hex : List Char) : TravelNav :=
  let start_dc := adjusted_dc base_dc pace
  let first : List Char × List Char :=
    if pace = "cautious".data ∧ slow_roll = 1 then (miredMsg, start_hex) else ([], [])
  if first.1 ≠ miredMsg then
    if nav_check ≥ start_dc then ⟨start_dc, successMsg, target_hex⟩
    else ⟨start_dc, lostMsg, selected_hex⟩
  else ⟨start_dc, first.1, first.2⟩

/-- Claim C3: pace `"fast"` adds 5 to the starting DC; pace `"cautious"`
subtracts 5 and rolls one d4 — a roll of exactly 1 mires the party: the
ending hex is the starting hex and the navigator check is never consulted
(the result is fixed, independent of the check); in every non-mired case a
check at or above the adjusted DC reaches the target hex, and a check below
it yields the lost outcome with the interactively selected replacement
hex. -/
theorem travel_navigation_spec (base_dc : Int) (pace : List Char) (slow_roll : Nat)
    (nav_check : Int) (start_hex target_hex selected_hex : List Char) :
    ((travel_navigation base_dc "fast".data slow_roll nav_check
        start_hex target_hex selected_hex).start_dc = base_dc + 5) ∧
    ((travel_navigation base_dc "cautious".data slow_roll nav_check
        start_hex target_hex selected_hex).start_dc = base_dc - 5) ∧
    (travel_navigation base_dc "cautious".data 1 nav_check
        start_hex target_hex selected_hex = ⟨base_dc - 5, miredMsg, start_hex⟩) ∧
    (¬(pace = "cautious".data ∧ slow_roll = 1) →
      (nav_check ≥ adjusted_dc base_dc pace →
        travel_navigation base_dc pace slow_roll nav_check start_hex target_hex selected_hex
          = ⟨adjusted_dc base_dc pace, successMsg, target_hex⟩) ∧
      (nav_check < adjusted_dc base_dc pace →
        travel_navigation base_dc pace slow_roll nav_check start_hex target_hex selected_hex
          = ⟨adjusted_dc base_dc pace, lostMsg, selected_hex⟩)) := by
  refine ⟨?_, ?_, ?_, ?_⟩
  · simp only [travel_navigation]
    split_ifs <;> rfl
  · simp only [travel_navigation]
    split_ifs <;> rfl
  · simp [travel_navigation, adjusted_dc]
  · intro hnm
    have hfirst :
        (if pace = "cautious".data ∧ slow_roll = 1 then (miredMsg, start_hex)
          else (([] : List Char), ([] : List Char))).1 ≠ miredMsg := by
      rw [if_neg hnm]
      simp [miredMsg]
    constructor
    · intro hge
      simp only [travel_navigation]
      rw [if_pos hfirst, if_pos hge]
    · intro hlt
      simp only [travel_navigation]
      rw [if_pos hfirst, if_neg (by omega)]

/-- Witness for claim C3: road hex (DC 10) at fast pace gives DC 15, and a
navigator check of 16 reaches the target hex. -/
theorem travel_navigation_spec_witness :
    travel_navigation 10 "fast".data 3 16 "road".data "jungle".data "swamp".data
      = ⟨15, successMsg, "jungle".data⟩ := by
  have hdc : adjusted_dc 10 "fast".data = 15 := by decide
  have h := ((travel_navigation_spec 10 "fast".data 3 16 "road".data "jungle".data
      "swamp".data).2.2.2 (by decide)).1 (by rw [hdc]; decide)
  rw [hdc] at h
  exact h

/-- Report of the survival-points computation: a positive number, the label
`"None"`, or the label `"N/A"`. -/
inductive SurvivalReport where
  | num (points : Int)
  | labelNone
  | labelNA
deriving DecidableEq

/-- Survival-points computation (`main.py` lines 504-514): the difference is
clamped at 0, a zero is relabelled `"None"`, and a safe ending hex (DC 0)
overrides everything with `"N/A"`. -/
def travel_survival_points (nav_check end_dc : Int) : SurvivalReport :=
  let survival_points := nav_check - end_dc
  let survival_points := max survival_points 0
  let report := if survival_points = 0 then SurvivalReport.labelNone
                else SurvivalReport.num survival_points
  if end_dc = 0 then SurvivalReport.labelNA else report

/-- Claim C4: the reported survival points are `max 0 (nav_check - end_dc)`;
an ending DC of exactly 0 reports `"N/A"` regardless of the check, a
computed 0 with nonzero ending DC reports `"None"`, and otherwise the
positive value itself is reported. -/
theorem travel_survival_points_spec (nav_check end_dc : Int) :
    (end_dc = 0 → travel_survival_points nav_check end_dc = SurvivalReport.labelNA) ∧
    (end_dc ≠ 0 → max (nav_check - end_dc) 0 = 0 →
        travel_survival_points nav_check end_dc = SurvivalReport.labelNone) ∧
    (end_dc ≠ 0 → 0 < max (nav_check - end_dc) 0 →
        travel_survival_points nav_check end_dc
          = SurvivalReport.num (max (nav_check - end_dc) 0)) := by
  refine ⟨?_, ?_, ?_⟩
  · intro h
    simp only [travel_survival_points]
    rw [if_pos h]
  · intro hdc h0
    simp only [travel_survival_points]
    rw [if_neg hdc, if_pos h0]
  · intro hdc hpos
    simp only [travel_survival_points]
    rw [if_neg hdc, if_neg (by omega)]

/-- Witness for claim C4: ending DC 10 with navigator check 17 reports the
integer 7. -/
theorem travel_survival_points_spec_witness :
    travel_survival_points 17 10 = SurvivalReport.num 7 := by
  have hmax : max ((17 : Int) - 10) 0 = 7 := by decide
  rw [show (7 : Int) = max ((17 : Int) - 10) 0 from hmax.symm]
  exact (travel_survival_points_spec 17 10).2.2 (by decide) (by decide)

/-! ### Message chunking: `split_message` (`main.py` lines 161-187) -/

/-- Model of Python `str.rfind` for a one-character needle: the index of the
last occurrence, or `none` where Python returns -1. -/
def lastIdxOf (c : Char) : List Char → Option Nat
  | [] => none
  | x :: xs =>
    match lastIdxOf c xs with
    | some i => some (i + 1)
    | none => if x = c then some 0 else none

/-- The `while len(content) > CHARLIMIT` loop of `split_message` (`main.py`
lines 178-184), including the final append of the remainder, with explicit
fuel: `none` means the loop has not finished within `fuel` iterations. -/
def split_message_loop (limit : Nat) : Nat → List Char → Option (List (List Char))
  | 0, _ => none
  | fuel + 1, content =>
    if content.length > limit then
      let split_index :=
        match lastIdxOf '\n' (content.take limit) with
        | some i => i
        | none => limit
      match split_message_loop limit fuel (content.drop split_index) with
      | some parts => some (content.take split_index :: parts)
      | none => none
    else some [content]

/-- `split_message` (`main.py` lines 161-187): a message within the limit is
returned unchanged as a single chunk; otherwise the loop repeatedly splits
at the last newline within the first `limit` characters (hard cut at
`limit` when there is none).  `none` means the loop did not terminate
within `fuel` iterations. -/
def split_message (limit : Nat) (message : List Char) (fuel : Nat) :
    Option (List (List Char)) :=
  if message.length > limit then split_message_loop limit fuel message
  else some [message]

theorem split_message_loop_stuck (f : Nat) :
    split_message_loop 5 f "\ncccccc".data = none := by
  induction f with
  | zero => rfl
  | succ f ih =>
      have hstep : split_message_loop 5 (f + 1) "\ncccccc".data
          = match split_message_loop 5 f "\ncccccc".data with
            | some parts => some (List.take 0 "\ncccccc".data :: parts)
            | none => none := rfl
      rw [hstep, ih]

/-- Claim C5 (code bug): chunking can fail to return at all.  With limit 5
and the 9-character message `"ab\ncccccc"`, the first iteration splits at
the newline (index 2) and leaves `"\ncccccc"`; the second iteration finds
the last newline of its 5-character window at index 0, so it appends the
empty chunk `content[:0]` and leaves `content = content[0:]` unchanged —
the loop never terminates, for any amount of fuel. -/
theorem split_message_diverges (fuel : Nat) :
    split_message 5 "ab\ncccccc".data fuel = none := by
  unfold split_message
  rw [if_pos (by decide)]
  cases fuel with
  | zero => rfl
  | succ f =>
      have hstep : split_message_loop 5 (f + 1) "ab\ncccccc".data
          = match split_message_loop 5 f "\ncccccc".data with
            | some parts => some (List.take 2 "ab\ncccccc".data :: parts)
            | none => none := rfl
      rw [hstep, split_message_loop_stuck f]

/-! ### Dice roller: `roll` (`main.py` lines 190-243) -/

/-- Model of the regex `^\d+d\d+$` (`main.py` line 210): one or more digits,
the letter `d`, one or more digits. -/
def dice_pattern_match (s : List Char) : Bool :=
  let ds1 := s.takeWhile Char.isDigit
  match s.drop ds1.length with
  | c :: rest => c = 'd' && !ds1.isEmpty && !rest.isEmpty && rest.all Char.isDigit
  | [] => false

/-- Model of the regex `^[+-]\d+$` (`main.py` line 211). -/
def modifier_pattern_match (s : List Char) : Bool :=
  match s with
  | c :: rest => (c = '+' || c = '-') && !rest.isEmpty && rest.all Char.isDigit
  | [] => false

/-- Model of Python `int(...)` on a digit string. -/
def parse_digits (l : List Char) : Nat :=
  l.foldl (fun a c => a * 10 + (c.toNat - '0'.toNat)) 0

/-- Model of Python `int(...)` on a signed modifier string. -/
def parse_modifier (l : List Char) : Int :=
  match l with
  | '+' :: ds => (parse_digits ds : Int)
  | '-' :: ds => -(parse_digits ds : Int)
  | _ => 0

/-- Model of `random.randint(lo, hi)`: for `lo ≤ hi` it returns a value in
`[lo, hi]` chosen by the entropy `r`; otherwise it raises `ValueError`,
modelled as `none`. -/
def randint (r lo hi : Nat) : Option Nat :=
  if lo ≤ hi then some (lo + r % (hi - lo + 1)) else none

/-- What the `roll` command reports: a format error (ephemeral message), a
modifier format error, an escaped `ValueError` from `randint`, or the list
of rolled values with the optional reported total. -/
inductive RollOutcome where
  | formatError
  | modifierError
  | raisedValueError
  | ok (diceroll : List Nat) (total : Option Int)
deriving DecidableEq

/-- The total reported by `roll` (`main.py` lines 238-241): with a modifier,
the sum of the rolls plus the signed modifier value; otherwise the plain sum,
shown only when more than one die was rolled. -/
def reported_total (modifier : Option (List Char)) (rolls : Nat) (s : Nat) : Option Int :=
  match modifier with
  | some m => some ((s : Int) + parse_modifier m)
  | none => if rolls > 1 then some ((s : Int)) else none

/-- The dice-drawing and reporting part of `roll` (`main.py` lines 228-241),
reached after both format validations passed and the expression was split at
`'d'` into the digit strings `ds1` and `ds2`. -/
def roll_dice_part (rng : Nat → Nat) (ds1 ds2 : List Char)
    (modifier : Option (List Char)) : RollOutcome :=
  let rolls := parse_digits ds1
  let limit := parse_digits ds2
  let draws := (List.range rolls).map (fun i => randint (rng i) 1 limit)
  if draws.all Option.isSome then
    let diceroll : List Nat := draws.map (fun o => o.getD 0)
    RollOutcome.ok diceroll (reported_total modifier rolls diceroll.sum)
  else RollOutcome.raisedValueError

/-- The modifier-validation guard of `roll` (`main.py` line 223): an error is
reported when a modifier is present and fails its format check. -/
def modifier_guard (modifier : Option (List Char)) : Bool :=
  match modifier with
  | some m => !modifier_pattern_match m
  | none => false

/-- The `roll` command (`main.py` lines 196-243): validate the two formats,
split the dice expression at `'d'`, then draw and report. -/
def roll_command (rng : Nat → Nat) (dice : List Char)
    (modifier : Option (List Char)) : RollOutcome :=
  if !dice_pattern_match dice then RollOutcome.formatError
  else if modifier_guard modifier then RollOutcome.modifierError
  else
    match splitChar 'd' dice with
    | [ds1, ds2] => roll_dice_part rng ds1 ds2 modifier
    | _ => RollOutcome.formatError

theorem takeWhile_all_append (p : Char → Bool) (xs : List Char) (y : Char)
    (ys : List Char) (hx : xs.all p = true) (hy : p y = false) :
    (xs ++ y :: ys).takeWhile p = xs := by
  induction xs with
  | nil => simp [List.takeWhile, hy]
  | cons a as ih =>
      simp only [List.all_cons, Bool.and_eq_true] at hx
      simp [List.takeWhile, hx.1, ih hx.2]

theorem splitChar_not_mem (c : Char) (l : List Char) (h : c ∉ l) :
    splitChar c l = [l] := by
  induction l with
  | nil => rfl
  | cons x xs ih =>
      simp only [List.mem_cons, not_or] at h
      simp only [splitChar]
      rw [if_neg (fun he => h.1 (by rw [he])), ih h.2]

theorem splitChar_append (c : Char) (xs ys : List Char) (h : c ∉ xs) :
    splitChar c (xs ++ c :: ys) = xs :: splitChar c ys := by
  induction xs with
  | nil => simp [splitChar]
  | cons a as ih =>
      simp only [List.mem_cons, not_or] at h
      simp only [List.cons_append, splitChar, List.append_eq]
      rw [if_neg (fun he => h.1 (by rw [he])), ih h.2]

theorem not_mem_of_all_digit (l : List Char) (h : l.all Char.isDigit = true) :
    'd' ∉ l := by
  intro hm
  have := List.all_eq_true.mp h 'd' hm
  simp [Char.isDigit] at this

theorem roll_dice_part_eval (rng : Nat → Nat) (ds1 ds2 : List Char)
    (modifier : Option (List Char)) (hM : 1 ≤ parse_digits ds2) :
    roll_dice_part rng ds1 ds2 modifier
      = RollOutcome.ok
          ((List.range (parse_digits ds1)).map (fun i => 1 + rng i % parse_digits ds2))
          (reported_total modifier (parse_digits ds1)
            ((List.range (parse_digits ds1)).map
              (fun i => 1 + rng i % parse_digits ds2)).sum) := by
  have hr : ∀ i : Nat, randint (rng i) 1 (parse_digits ds2)
      = some (1 + rng i % parse_digits ds2) := by
    intro i
    unfold randint
    rw [if_pos hM, Nat.sub_add_cancel hM]
  simp only [roll_dice_part, hr]
  have hall : ((List.range (parse_digits ds1)).map
      (fun i => Option.some (1 + rng i % parse_digits ds2))).all Option.isSome = true := by
    rw [List.all_eq_true]
    intro o ho
    rw [List.mem_map] at ho
    obtain ⟨i, _, hio⟩ := ho
    rw [← hio]
    rfl
  rw [if_pos hall]
  simp [List.map_map, Function.comp_def]

/-- Claim C8: for a dice expression built from nonempty digit strings with
parsed values `N = parse_digits ds1 ≥ 1` and `M = parse_digits ds2 ≥ 1` and a
well-formed optional modifier, the command reports exactly `N` rolls, each in
`[1, M]`; with a modifier the reported total is the sum of the reported rolls
plus the signed modifier value, and without one the plain sum is reported
exactly when more than one die was rolled. -/
theorem roll_command_spec (rng : Nat → Nat) (ds1 ds2 : List Char)
    (modifier : Option (List Char))
    (h1 : ds1.all Char.isDigit = true) (h1n : ds1.isEmpty = false)
    (h2 : ds2.all Char.isDigit = true) (h2n : ds2.isEmpty = false)
    (hM : 1 ≤ parse_digits ds2)
    (hmod : ∀ m, modifier = some m → modifier_pattern_match m = true) :
    roll_command rng (ds1 ++ 'd' :: ds2) modifier
      = RollOutcome.ok
          ((List.range (parse_digits ds1)).map (fun i => 1 + rng i % parse_digits ds2))
          (reported_total modifier (parse_digits ds1)
            ((List.range (parse_digits ds1)).map
              (fun i => 1 + rng i % parse_digits ds2)).sum) ∧
    (((List.range (parse_digits ds1)).map
        (fun i => 1 + rng i % parse_digits ds2)).length = parse_digits ds1) ∧
    (∀ v ∈ (List.range (parse_digits ds1)).map (fun i => 1 + rng i % parse_digits ds2),
        1 ≤ v ∧ v ≤ parse_digits ds2) ∧
    (∀ m s, reported_total (some m) (parse_digits ds1) s = some ((s : Int) + parse_modifier m)) ∧
    (∀ s : Nat, reported_total none (parse_digits ds1) s
        = if parse_digits ds1 > 1 then some ((s : Int)) else none) := by
  have hpat : dice_pattern_match (ds1 ++ 'd' :: ds2) = true := by
    have htw : (ds1 ++ 'd' :: ds2).takeWhile Char.isDigit = ds1 :=
      takeWhile_all_append Char.isDigit ds1 'd' ds2 h1 (by decide)
    simp only [dice_pattern_match, htw, List.drop_left]
    simp [h1n, h2n, h2]
  have hsplit : splitChar 'd' (ds1 ++ 'd' :: ds2) = [ds1, ds2] := by
    rw [splitChar_append 'd' ds1 ds2 (not_mem_of_all_digit ds1 h1),
        splitChar_not_mem 'd' ds2 (not_mem_of_all_digit ds2 h2)]
  have hguard : modifier_guard modifier = false := by
    cases modifier with
    | none => rfl
    | some m =>
        show (!modifier_pattern_match m) = false
        rw [hmod m rfl]
        rfl
  have hcmd : roll_command rng (ds1 ++ 'd' :: ds2) modifier
      = roll_dice_part rng ds1 ds2 modifier := by
    unfold roll_command
    rw [hpat, hguard, hsplit]
    rfl
  refine ⟨?_, ?_, ?_, ?_, ?_⟩
  · rw [hcmd, roll_dice_part_eval rng ds1 ds2 modifier hM]
  · simp
  · intro v hv
    rw [List.mem_map] at hv
    obtain ⟨i, _, hiv⟩ := hv
    have hlt : rng i % parse_digits ds2 < parse_digits ds2 :=
      Nat.mod_lt _ (by omega)
    omega
  · intro m s; rfl
  · intro s; rfl

/-- Witness for claim C8: rolling `2d6` with modifier `+3` and entropy 10
for every draw yields two fives and the total 13. -/
theorem roll_command_spec_witness :
    roll_command (fun _ => 10) "2d6".data (some "+3".data)
      = RollOutcome.ok [5, 5] (some 13) ∧
    (∀ v ∈ ([5, 5] : List Nat), 1 ≤ v ∧ v ≤ 6) := by
  have h := roll_command_spec (fun _ => 10) "2".data "6".data (some "+3".data)
      (by decide) (by decide) (by decide) (by decide) (by decide)
      (by intro m hm; cases hm; decide)
  exact ⟨h.1, h.2.2.1⟩

/-! ### Spell lookup construction (`modules/spells.py`) -/

/-- Model of Python `str.capitalize` (ASCII): first character upper-cased,
the rest lower-cased. -/
def capitalizeWord : List Char → List Char
  | [] => []
  | c :: cs => c.toUpper :: cs.map Char.toLower

/-- Helper of `splitWhitespaceWords`: `cur` is the current word, reversed. -/
def splitWS_go (cur : List Char) : List Char → List (List Char)
  | [] => if cur.isEmpty then [] else [cur.reverse]
  | c :: cs =>
    if c.isWhitespace then
      if cur.isEmpty then splitWS_go [] cs
      else cur.reverse :: splitWS_go [] cs
    else splitWS_go (c :: cur) cs

/-- Model of Python `str.split()` with no separator: whitespace-delimited
words, empty strings dropped. -/
def splitWhitespaceWords (l : List Char) : List (List Char) :=
  splitWS_go [] l

/-- Model of `string.capwords`: split on whitespace, capitalize each word,
join with single spaces. -/
def capwords (l : List Char) : List Char :=
  List.intercalate [' '] ((splitWhitespaceWords l).map capitalizeWord)

/-- Model of Python `str.upper` (ASCII). -/
def upperChars (l : List Char) : List Char := l.map Char.toUpper

/-- The spell data environment: `sources.json` (source key to the set of
spell names it lists), `index.json` (source key to data filename), and the
per-source data files (filename to the names of the entries of its `spell`
array).  Spell entries are modelled by their names, the only field the
existence checks consult. -/
structure SpellData where
  spells_sources : List (List Char × List (List Char))
  spells_index : List (List Char × List Char)
  files : List (List Char × List (List Char))

/-- Dictionary lookup on an association list (first matching key), the model
of a Python `dict` subscript that is known to be present, or `dict.get`. -/
def assocLookup {β : Type} (k : List Char) (m : List (List Char × β)) : Option β :=
  (m.find? (fun p => p.1 = k)).map Prod.snd

/-- `Spell._get_source_file` (`spells.py` lines 161-182): with no source,
scan `sources.json` for the first source listing the name and subscript
`index.json` with that key — `Except.error` models the `KeyError` when the
key is absent there; with a source, return its filename when indexed, else
`None`. -/
def get_source_file (env : SpellData) (name : List Char) (source : Option (List Char)) :
    Except Unit (Option (List Char)) :=
  match source with
  | none =>
    match env.spells_sources.find? (fun p => p.2.contains name) with
    | some kv =>
        match assocLookup kv.1 env.spells_index with
        | some f => Except.ok (some f)
        | none => Except.error ()
    | none => Except.ok none
  | some src =>
    match assocLookup src env.spells_index with
    | some f => Except.ok (some f)
    | none => Except.ok none

/-- `Spell._get_spell` (`spells.py` lines 184-202): open the resolved source
file (`Except.error` models the exception when it cannot be opened) and scan
its `spell` array for an exact name match. -/
def get_spell (env : SpellData) (source_file name : List Char) :
    Except Unit (Option (List Char)) :=
  match assocLookup source_file env.files with
  | none => Except.error ()
  | some names => Except.ok (names.find? (fun n => n = name))

/-- The lookup state built by `Spell.__init__` (`spells.py` lines 54-82):
normalized name and source, the resolved source file, and the resolved spell
record (modelled by its name). -/
structure SpellLookup where
  name : List Char
  source : Option (List Char)
  source_file : Option (List Char)
  spell_dict : Option (List Char)
deriving DecidableEq

/-- `Spell.__init__` (`spells.py` lines 54-82): normalize the inputs with
`string.capwords` / `str.upper`, resolve the source file, and resolve the
spell record only when a source file was found (`spell_dict` starts as
`None` and is only assigned under `if self.source_file is not None`).
`Except.error` models an exception escaping the constructor. -/
def Spell_init (env : SpellData) (name : List Char) (source : Option (List Char)) :
    Except Unit SpellLookup :=
  let name2 := capwords name
  let source2 := source.map upperChars
  match get_source_file env name2 source2 with
  | Except.error e => Except.error e
  | Except.ok none => Except.ok ⟨name2, source2, none, none⟩
  | Except.ok (some f) =>
      match get_spell env f name2 with
      | Except.error e => Except.error e
      | Except.ok sd => Except.ok ⟨name2, source2, some f, sd⟩

/-- `Spell.source_exists` (`spells.py` lines 377-394). -/
def source_exists (s : SpellLookup) : Bool := s.source_file.isSome

/-- `Spell.spell_exists` (`spells.py` lines 396-413). -/
def spell_exists (s : SpellLookup) : Bool := s.spell_dict.isSome

/-- Claim C10: for every constructed lookup (any name, with or without a
source), if `spell_exists()` returns true then `source_exists()` returns
true — the spell record is only ever resolved after a source file has been
resolved. -/
theorem spell_exists_implies_source_exists (env : SpellData) (name : List Char)
    (source : Option (List Char)) (s : SpellLookup)
    (hs : Spell_init env name source = Except.ok s)
    (hsp : spell_exists s = true) : source_exists s = true := by
  simp only [Spell_init] at hs
  cases hgs : get_source_file env (capwords name) (source.map upperChars) with
  | error e => simp [hgs] at hs
  | ok sf =>
      cases sf with
      | none =>
          simp [hgs] at hs
          rw [← hs] at hsp
          simp [spell_exists] at hsp
      | some f =>
          cases hgsp : get_spell env f (capwords name) with
          | error e => simp [hgs, hgsp] at hs
          | ok sd =>
              simp [hgs, hgsp] at hs
              rw [← hs]
              rfl

/-- Witness for claim C10: a concrete one-source environment in which the
looked-up spell resolves, so both existence checks return true. -/
theorem spell_exists_implies_source_exists_witness :
    source_exists ⟨"Fireball".data, some "PHB".data, some "phb.json".data,
        some "Fireball".data⟩ = true :=
  spell_exists_implies_source_exists
    ⟨[("PHB".data, ["Fireball".data])],
     [("PHB".data, "phb.json".data)],
     [("phb.json".data, ["Fireball".data])]⟩
    "fireball".data (some "phb".data)
    ⟨"Fireball".data, some "PHB".data, some "phb.json".data, some "Fireball".data⟩
    rfl rfl

/-! ### Decorator stripping (`modules/spells.py`,
`Spell._remove_description_decorators`, lines 342-375).  The five
substitutions are translated as left-to-right scanners over the character
list, mirroring how `re.sub` and `str.replace` remove every non-overlapping
leftmost occurrence.  Each scanner takes the text length as fuel; a match
always consumes at least one character, so the fuel never runs out. -/

/-- The opening curly brace. -/
def braceO : Char := Char.ofNat 123

/-- The closing curly brace. -/
def braceC : Char := Char.ofNat 125

/-- The regex class `[a-z]`. -/
def isLowerAZ (c : Char) : Bool := ('a' ≤ c) && (c ≤ 'z')

/-- `[0-9]\x7b1,2\x7d` followed by the literal `sep`, greedily: two digits are
taken when the separator follows them; a digit can never equal the
separator, so no other backtracking exists. -/
def digits12 (sep : Char) : List Char → Option (List Char)
  | d1 :: d2 :: rest =>
      if d1.isDigit then
        if d2.isDigit then
          match rest with
          | s :: r => if s = sep then some r else none
          | [] => none
        else if d2 = sep then some rest else none
      else none
  | _ => none

/-- Zero or more further `e` (the `e+` of the pattern, first `e` already
consumed) followed by a space. -/
def afterEs : List Char → Option (List Char)
  | 'e' :: rest => afterEs rest
  | ' ' :: rest => some rest
  | _ => none

/-- Match of the scaledamage-prefix regex (`spells.py` line 361) at the head
of the text, returning the remainder after the match. -/
def matchScaledamage : List Char → Option (List Char)
  | b :: a :: 's' :: 'c' :: 'a' :: 'l' :: 'e' :: 'd' :: 'a' :: 'm' :: 'a' :: 'g' :: 'e' :: rest =>
      if b = braceO ∧ a = '@' then
        match afterEs rest with
        | some r1 =>
            match r1 with
            | d0 :: 'd' :: r2 =>
                if d0.isDigit then
                  (digits12 '|' r2).bind (fun r3 =>
                    (digits12 '-' r3).bind (fun r4 => digits12 '|' r4))
                else none
            | _ => none
        | none => none
      else none
  | _ => none

/-- Scanner for `re.sub` of the scaledamage prefix. -/
def scaleScan : Nat → List Char → List Char
  | 0, l => l
  | _ + 1, [] => []
  | fuel + 1, x :: xs =>
    match matchScaledamage (x :: xs) with
    | some rest => scaleScan fuel rest
    | none => x :: scaleScan fuel xs

/-- Substitution 1 (`spells.py` line 361): remove every scaledamage
prefix. -/
def sub_scaledamage (l : List Char) : List Char := scaleScan l.length l

/-- Match of the generic decorator-prefix regex (`spells.py` line 364) — an
opening brace, `@`, one or more lowercase letters, a space — at the head of
the text. -/
def matchTag : List Char → Option (List Char)
  | b :: a :: rest =>
      if b = braceO ∧ a = '@' then
        if (rest.takeWhile isLowerAZ).isEmpty then none
        else
          match rest.drop (rest.takeWhile isLowerAZ).length with
          | ' ' :: r => some r
          | _ => none
      else none
  | _ => none

/-- Scanner for `re.sub` of the generic decorator prefixes. -/
def tagScan : Nat → List Char → List Char
  | 0, l => l
  | _ + 1, [] => []
  | fuel + 1, x :: xs =>
    match matchTag (x :: xs) with
    | some rest => tagScan fuel rest
    | none => x :: tagScan fuel xs

/-- Substitution 2 (`spells.py` line 364): remove every decorator prefix of
the shape opening-brace, `@`, lowercase word, space. -/
def sub_decorator_tags (l : List Char) : List Char := tagScan l.length l

/-- The chance-decorator closing fragment replaced on `spells.py` line
367. -/
def chanceCloseOld : List Char := "|||Random reading!|Regular reading\x7d".data

/-- Its replacement. -/
def chanceCloseNew : List Char := " percent".data

/-- Scanner for `str.replace(pat, rep)`: replace every non-overlapping
leftmost occurrence. -/
def replaceScan (pat rep : List Char) : Nat → List Char → List Char
  | 0, l => l
  | _ + 1, [] => []
  | fuel + 1, x :: xs =>
    if isPrefixChars pat (x :: xs) then
      rep ++ replaceScan pat rep fuel ((x :: xs).drop pat.length)
    else x :: replaceScan pat rep fuel xs

/-- Substitution 3 (`spells.py` line 367). -/
def sub_chance_close (l : List Char) : List Char :=
  replaceScan chanceCloseOld chanceCloseNew l.length l

/-- Scanner for the pipe-suffix regex (`spells.py` line 370): a pipe, one or
more characters other than newline (`.` does not match a newline), then a
closing brace, greedily — so at the first pipe whose same-line window holds
a closing brace at distance at least two, everything through the last such
brace is removed. -/
def pipeScan : Nat → List Char → List Char
  | 0, l => l
  | _ + 1, [] => []
  | fuel + 1, x :: xs =>
    if x = '|' then
      match lastIdxOf braceC (xs.takeWhile (fun c => c ≠ '\n')) with
      | some i => if 1 ≤ i then pipeScan fuel (xs.drop (i + 1)) else x :: pipeScan fuel xs
      | none => x :: pipeScan fuel xs
    else x :: pipeScan fuel xs

/-- Substitution 4 (`spells.py` line 370). -/
def sub_pipe_suffix (l : List Char) : List Char := pipeScan l.length l

/-- Substitution 5 (`spells.py` line 373): remove every closing brace. -/
def sub_close_braces (l : List Char) : List Char := l.filter (fun c => c ≠ braceC)

/-- `Spell._remove_description_decorators` (`spells.py` lines 342-375): the
five substitutions applied in source order. -/
def remove_description_decorators (l : List Char) : List Char :=
  sub_close_braces (sub_pipe_suffix (sub_chance_close (sub_decorator_tags (sub_scaledamage l))))

theorem isPrefixChars_mem (n : List Char) : ∀ h : List Char,
    isPrefixChars n h = true → ∀ c ∈ n, c ∈ h := by
  induction n with
  | nil => intro h _ c hc; simp at hc
  | cons a as ih =>
      intro h hp c hc
      cases h with
      | nil => simp [isPrefixChars] at hp
      | cons b bs =>
          simp only [isPrefixChars, Bool.and_eq_true, decide_eq_true_eq] at hp
          rcases List.mem_cons.mp hc with rfl | hc2
          · rw [hp.1]
            exact List.mem_cons_self _ _
          · exact List.mem_cons_of_mem _ (ih bs hp.2 c hc2)

theorem no_brace_in_close (l : List Char) : braceC ∉ sub_close_braces l := by
  intro h
  rw [sub_close_braces, List.mem_filter] at h
  simp at h

theorem close_no_brace (l : List Char) (h : braceC ∉ l) : sub_close_braces l = l := by
  rw [sub_close_braces]
  apply List.filter_eq_self.mpr
  intro a ha
  exact decide_eq_true (by rintro rfl; exact h ha)

theorem chance_no_brace (fuel : Nat) : ∀ l : List Char, braceC ∉ l →
    replaceScan chanceCloseOld chanceCloseNew fuel l = l := by
  induction fuel with
  | zero => intro l _; rfl
  | succ f ih =>
      intro l h
      cases l with
      | nil => rfl
      | cons x xs =>
          simp only [List.mem_cons, not_or] at h
          have hnp : isPrefixChars chanceCloseOld (x :: xs) = false := by
            cases hb : isPrefixChars chanceCloseOld (x :: xs)
            · rfl
            · have hm := isPrefixChars_mem chanceCloseOld (x :: xs) hb braceC (by decide)
              rcases List.mem_cons.mp hm with he | he
              · exact absurd he h.1
              · exact absurd he h.2
          simp [replaceScan, hnp, ih xs h.2]

theorem lastIdxOf_not_mem (c : Char) (l : List Char) (h : c ∉ l) :
    lastIdxOf c l = none := by
  induction l with
  | nil => rfl
  | cons x xs ih =>
      simp only [List.mem_cons, not_or] at h
      simp only [lastIdxOf, ih h.2]
      rw [if_neg (fun he => h.1 he.symm)]

theorem pipe_no_brace (fuel : Nat) : ∀ l : List Char, braceC ∉ l →
    pipeScan fuel l = l := by
  induction fuel with
  | zero => intro l _; rfl
  | succ f ih =>
      intro l h
      cases l with
      | nil => rfl
      | cons x xs =>
          simp only [List.mem_cons, not_or] at h
          have hnb : braceC ∉ xs.takeWhile (fun c => c ≠ '\n') := by
            intro hm
            exact h.2 ((List.takeWhile_prefix _).subset hm)
          by_cases hx : x = '|'
          · simp only [pipeScan]
            rw [if_pos hx, lastIdxOf_not_mem braceC _ hnb]
            show x :: pipeScan f xs = x :: xs
            rw [ih xs h.2]
          · simp only [pipeScan]
            rw [if_neg hx, ih xs h.2]

/-- Claim C6 (amended): applying the transform to the string
`"\x7b@damage 2d6\x7d"` replaces the decorator with `"2d6"`; the transform
applied twice agrees with one application on every string whose
once-stripped form is a fixed point of the two decorator-prefix
substitutions (in particular on every decorator-free output); but it is not
idempotent on all strings, because removing a closing brace can expose a
decorator prefix that only a second application removes. -/
theorem remove_description_decorators_spec :
    remove_description_decorators "\x7b@damage 2d6\x7d".data = "2d6".data ∧
    (∀ l : List Char,
      sub_decorator_tags (sub_scaledamage (remove_description_decorators l))
        = remove_description_decorators l →
      remove_description_decorators (remove_description_decorators l)
        = remove_description_decorators l) := by
  constructor
  · decide
  · intro l hfix
    have hnb : braceC ∉ remove_description_decorators l := by
      show braceC ∉ sub_close_braces (sub_pipe_suffix (sub_chance_close
          (sub_decorator_tags (sub_scaledamage l))))
      exact no_brace_in_close _
    show sub_close_braces (sub_pipe_suffix (sub_chance_close (sub_decorator_tags
        (sub_scaledamage (remove_description_decorators l)))))
      = remove_description_decorators l
    rw [hfix]
    unfold sub_chance_close
    rw [chance_no_brace _ _ hnb]
    unfold sub_pipe_suffix
    rw [pipe_no_brace _ _ hnb]
    exact close_no_brace _ hnb

/-- Claim C6 counterexample: the transform is not idempotent.  On
`"\x7b@da\x7dmage 2d6"` one application removes only the closing brace,
yielding `"\x7b@damage 2d6"`, which now carries a decorator prefix that a
second application strips down to `"2d6"`. -/
theorem remove_description_decorators_not_idempotent :
    remove_description_decorators (remove_description_decorators
        "\x7b@da\x7dmage 2d6".data)
      ≠ remove_description_decorators "\x7b@da\x7dmage 2d6".data := by decide

/-- Witness for the amended claim C6 at a decorator-free description. -/
theorem remove_description_decorators_spec_witness :
    remove_description_decorators (remove_description_decorators
        "A bolt of lightning.".data)
      = remove_description_decorators "A bolt of lightning.".data :=
  remove_description_decorators_spec.2 "A bolt of lightning.".data (by decide)
